import Mathlib

/-!
Verification development for the m3 "boost" attribute codec and symbol-table
engine (src/boost/core and src/boost/client).

The Go code is shallowly embedded: Go maps become association lists (the code
only ever inserts fresh keys or overwrites existing ones, and map sizes are
modelled by list lengths, which coincide because keys stay distinct), Go
slices become `List`, machine integers become `Nat` with explicit `% 2^w`
where overflow matters, in-place mutation becomes explicit state passing, and
the asynchronous stream writer is modelled by returning the list of emitted
instruction records.  Unbounded Go `for` loops are given an explicit fuel
argument; a result of `none` means the loop has not terminated within the
given fuel.
-/

namespace M3Boost

/-- Association-list lookup, modelling Go map read `m[k]` (comma-ok form). -/
def alookup {κ α : Type} [DecidableEq κ] (k : κ) : List (κ × α) → Option α
  | [] => none
  | (k', v) :: rest => if k' = k then some v else alookup k rest

/-- Association-list write, modelling Go map assignment `m[k] = v`:
overwrites the value when the key is present, otherwise appends. -/
def aupdate {κ α : Type} [DecidableEq κ] (k : κ) (v : α) : List (κ × α) → List (κ × α)
  | [] => [(k, v)]
  | (k', v') :: rest => if k' = k then (k, v) :: rest else (k', v') :: aupdate k v rest

/-- Instruction records of the symbol-table stream, at the decoded level
(the byte-level header codec is modelled separately below).  Mirrors the
`TableInstruction` constants Init=0, Update=1, AddAttribute=2, End=3 together
with the per-kind payloads written by `M3DBSymStreamWriter`. -/
inductive Instr : Type where
  | initI (version seq : Nat) (values : List String)
  | updateI (version seq : Nat) (values : List String)
  | addAttrI (version seq : Nat) (name : String) (encoding : Nat) (ids : List Nat)
  | endI (version seq : Nat)
  deriving DecidableEq, Repr

/-- The `TableInstruction` opcode of a record (Init=0, Update=1,
AddAttribute=2, End=3), as `M3DBSymStreamReader.Next` returns it. -/
def instrKind : Instr → Nat
  | .initI _ _ _ => 0
  | .updateI _ _ _ => 1
  | .addAttrI _ _ _ _ _ => 2
  | .endI _ _ => 3

/-- Header version of a record. -/
def instrVersion : Instr → Nat
  | .initI v _ _ => v
  | .updateI v _ _ => v
  | .addAttrI v _ _ _ _ => v
  | .endI v _ => v

/-- Header sequence number of a record. -/
def instrSeq : Instr → Nat
  | .initI _ s _ => s
  | .updateI _ s _ => s
  | .addAttrI _ s _ _ _ => s
  | .endI _ s => s

/-- `AttributeTable` of symtable.go: per-attribute ordered value-ids plus the
reverse map from global value-id to local index. -/
structure AttributeTable : Type where
  name : String
  encodingType : Nat
  encodedValues : List Nat
  encodedValuesFromIndex : List (Nat × Nat)
  deriving DecidableEq, Repr

/-- `SymTable` of symtable.go.  `hasWriter` models `streamWriter != nil`.
The Go `header map[string]int` always maps a name to `len(header)` at the
moment of insertion, so it is exactly an insertion-ordered list of names with
the column index given by the list position; it is modelled as that list. -/
structure SymTable : Type where
  name : String
  version : Nat
  instructionSeqNum : Nat
  finalized : Bool
  dictToString : List (Nat × String)
  dictToIndex : List (String × Nat)
  header : List String
  attributeTable : List (String × AttributeTable)
  hasWriter : Bool
  deriving DecidableEq, Repr

/-- `NewSymTable`. -/
def newSymTable (name : String) (version : Nat) (hasWriter : Bool) : SymTable :=
  { name := name
    version := version
    instructionSeqNum := 0
    finalized := false
    dictToString := []
    dictToIndex := []
    header := []
    attributeTable := []
    hasWriter := hasWriter }

/-- Result of a mutating `SymTable` call: the table after the call (Go mutates
through a pointer, so partial updates survive an error return), the
instruction records handed to the stream writer, and the returned error. -/
structure MutResult : Type where
  table : SymTable
  emitted : List Instr
  err : Option String
  deriving DecidableEq, Repr

/-- `SymTable.AttributeValueExists`. -/
def attributeValueExists (sym : SymTable) (value : String) : Bool :=
  (alookup value sym.dictToIndex).isSome

/-- The insertion loop of `SymTable.UpdateDictionary`: starting from
`indexValue = len(dictToString)`, every value is checked against both maps
and then inserted; the loop returns early with an error on the first
duplicate, keeping the insertions made so far. -/
def updDictLoop (dictS : List (Nat × String)) (dictI : List (String × Nat))
    (indexValue : Nat) : List String → List (Nat × String) × List (String × Nat) × Option String
  | [] => (dictS, dictI, none)
  | v :: rest =>
    if (alookup indexValue dictS).isSome then
      (dictS, dictI, some "index value already exists in symbol table")
    else if (alookup v dictI).isSome then
      (dictS, dictI, some "attribute name already exists in symbol table")
    else
      updDictLoop (dictS ++ [(indexValue, v)]) (dictI ++ [(v, indexValue)]) (indexValue + 1) rest

/-- `SymTable.UpdateDictionary`.  On success with a writer attached and the
table not finalized, emits `Init` (when `instructionSeqNum == 0`, with
sequence number 1) or `Update` (with sequence number `instructionSeqNum+1`)
and increments `instructionSeqNum`.  On error no record is emitted, but the
insertions made before the failing value remain in the table. -/
def updateDictionary (sym : SymTable) (attributeValues : List String) : MutResult :=
  if attributeValues.isEmpty then
    ⟨sym, [], some "attribute values are empty"⟩
  else
    match updDictLoop sym.dictToString sym.dictToIndex sym.dictToString.length attributeValues with
    | (dictS, dictI, some e) =>
      ⟨{ sym with dictToString := dictS, dictToIndex := dictI }, [], some e⟩
    | (dictS, dictI, none) =>
      if !sym.finalized && sym.hasWriter then
        if sym.instructionSeqNum = 0 then
          ⟨{ sym with
              dictToString := dictS
              dictToIndex := dictI
              instructionSeqNum := sym.instructionSeqNum + 1 },
            [Instr.initI sym.version 1 attributeValues], none⟩
        else
          ⟨{ sym with
              dictToString := dictS
              dictToIndex := dictI
              instructionSeqNum := sym.instructionSeqNum + 1 },
            [Instr.updateI sym.version (sym.instructionSeqNum + 1) attributeValues], none⟩
      else ⟨{ sym with dictToString := dictS, dictToIndex := dictI }, [], none⟩

/-- A fresh `AttributeTable` as built inside `InsertAttributeValue` /
`InsertAttributeIndices` (always `DictionaryEncodedValue = 1`). -/
def emptyAttrTable (name : String) : AttributeTable :=
  { name := name, encodingType := 1, encodedValues := [], encodedValuesFromIndex := [] }

/-- Replace the attribute entry for `name` by `f` applied to it (Go mutates
`sym.attributeTable[name]` through a pointer). -/
def applyToAttr (sym : SymTable) (name : String) (f : AttributeTable → AttributeTable) : SymTable :=
  { sym with attributeTable :=
      sym.attributeTable.map (fun kv => if kv.1 = name then (kv.1, f kv.2) else kv) }

/-- `SymTable.updateStreamWithAttributeInstructionParam`: when a writer is
attached and the table is not finalized, emit one `AddAttribute` record with
sequence number `instructionSeqNum+1` and bump `instructionSeqNum`. -/
def updateStreamAttr (sym : SymTable) (name : String) (ids : List Nat) : MutResult :=
  if sym.hasWriter && !sym.finalized then
    ⟨{ sym with instructionSeqNum := sym.instructionSeqNum + 1 },
      [Instr.addAttrI sym.version (sym.instructionSeqNum + 1) name 1 ids], none⟩
  else ⟨sym, [], none⟩

/-- `SymTable.InsertAttributeValue`: intern the value if new, create the
attribute (and a header column) if new, append the value-id to the attribute
if not already indexed, then emit one `AddAttribute` record naming the single
value-id.  Note the record is emitted even when the in-memory insertion was a
no-op. -/
def insertAttributeValue (sym : SymTable) (name value : String) : MutResult :=
  let sym1 :=
    if (alookup value sym.dictToIndex).isSome then sym
    else
      let id := sym.dictToIndex.length
      { sym with dictToIndex := sym.dictToIndex ++ [(value, id)],
                 dictToString := sym.dictToString ++ [(id, value)] }
  let sym2 :=
    if (alookup name sym1.attributeTable).isSome then sym1
    else { sym1 with attributeTable := sym1.attributeTable ++ [(name, emptyAttrTable name)],
                     header := sym1.header ++ [name] }
  -- value is present in dictToIndex at this point, so the default is unreachable
  let id := (alookup value sym2.dictToIndex).getD 0
  let sym3 := applyToAttr sym2 name (fun tbl =>
    if (alookup id tbl.encodedValuesFromIndex).isSome then tbl
    else { tbl with encodedValues := tbl.encodedValues ++ [id],
                    encodedValuesFromIndex :=
                      tbl.encodedValuesFromIndex ++ [(id, tbl.encodedValuesFromIndex.length)] })
  updateStreamAttr sym3 name [id]

/-- `SymTable.InsertAttributeIndices`: create the attribute (and header
column) if absent, then validate every id against the dictionary — returning
an error, with the attribute creation already applied, if one is unknown —
and otherwise append all ids unconditionally, updating the reverse map with
`encodedValuesFromIndex[id] = len(encodedValuesFromIndex)` (an overwrite when
the id is already present), and emit one `AddAttribute` record. -/
def insertAttributeIndices (sym : SymTable) (name : String) (indices : List Nat) : MutResult :=
  let sym1 :=
    if (alookup name sym.attributeTable).isSome then sym
    else { sym with attributeTable := sym.attributeTable ++ [(name, emptyAttrTable name)],
                    header := sym.header ++ [name] }
  if indices.any (fun i => (alookup i sym1.dictToString).isNone) then
    ⟨sym1, [], some "index value doesn't exist in symbol table"⟩
  else
    let sym2 := applyToAttr sym1 name (fun tbl =>
      indices.foldl (fun a i =>
        { a with encodedValues := a.encodedValues ++ [i],
                 encodedValuesFromIndex := aupdate i a.encodedValuesFromIndex.length
                   a.encodedValuesFromIndex }) tbl)
    updateStreamAttr sym2 name indices

/-- `SymTable.Finalize`: only sets the flag; the `End` record is a TODO in the
source and nothing is emitted. -/
def finalizeTable (sym : SymTable) : SymTable × List Instr :=
  ({ sym with finalized := true }, [])

/-- `SymTable.FindAttributeIndex`: -1 when the attribute or the value or the
local index is absent. -/
def findAttributeIndex (sym : SymTable) (name value : String) : Int :=
  match alookup name sym.attributeTable with
  | none => -1
  | some tbl =>
    match alookup value sym.dictToIndex with
    | none => -1
    | some dictIndex =>
      match alookup dictIndex tbl.encodedValuesFromIndex with
      | some v => Int.ofNat v
      | none => -1

/-- The slot value `GetIndexedHeader` computes for one header column: the Go
loop first writes -1 and overwrites it with `FindAttributeIndex` when the
input map has the name, so the slot is -1 exactly in the two cases in which
the loop also raises `hasMissing`. -/
def slotFor (sym : SymTable) (attributes : List (String × String)) (name : String) : Int :=
  match alookup name attributes with
  | none => -1
  | some v => findAttributeIndex sym name v

/-- The per-column loop of `GetIndexedHeader`, accumulating the slot vector in
header order and the `hasMissing` flag (raised when the input lacks the name
or the value is unknown, i.e. exactly when the slot is written as -1). -/
def giLoop (sym : SymTable) (attributes : List (String × String)) : List String → List Int × Bool
  | [] => ([], false)
  | n :: rest =>
    let idx := slotFor sym attributes n
    let r := giLoop sym attributes rest
    (idx :: r.1, (idx == -1) || r.2)

/-- `SymTable.GetIndexedHeader`.  Note the early return on an empty header:
the Go code returns the empty slot vector together with `true`. -/
def getIndexedHeader (sym : SymTable) (attributes : List (String × String)) : List Int × Bool :=
  if sym.header.length = 0 then ([], true)
  else giLoop sym attributes sym.header

/-- `SymTable.IsSame`: equality of dictionaries (by id), of the attribute set,
of encoding types and of the `encodedValues` sequences in order.  A Go read of
a missing map key yields the zero value, modelled by `getD ""`. -/
def isSame (sym other : SymTable) : Bool :=
  sym.dictToString.length == other.dictToString.length &&
  sym.dictToString.all (fun kv => (alookup kv.1 other.dictToString).getD "" == kv.2) &&
  sym.attributeTable.length == other.attributeTable.length &&
  sym.attributeTable.all (fun kv =>
    match alookup kv.1 other.attributeTable with
    | none => false
    | some o =>
      kv.2.encodingType == o.encodingType &&
      kv.2.encodedValues.length == o.encodedValues.length &&
      (kv.2.encodedValues.zip o.encodedValues).all (fun p => p.1 == p.2))

/-! ## Stream reader (M3DBSymStreamReader and BoostSession replay)

The reader is driven by `Next()`, which at end of stream keeps returning
`NOPInstruction` with a nil error.  The stream is modelled as the list of
records still ahead of the cursor.  The unbounded Go loops take a fuel
argument; `none` means the loop is still running after that many
iterations. -/

/-- `ReadInitInstruction`: the payload of the current record, or an error when
the cursor is not on an `Init` record. -/
def readInitParams : Instr → Except String (List String)
  | .initI _ _ vs => Except.ok vs
  | _ => Except.error "stream not seeked to a InitSymTable instruction"

/-- `ReadUpdateInstruction`. -/
def readUpdateParams : Instr → Except String (List String)
  | .updateI _ _ vs => Except.ok vs
  | _ => Except.error "stream not seeked to a UpdateSymTable instruction"

/-- `ReadAttributeInstruction`. -/
def readAttrParams : Instr → Except String (String × Nat × List Nat)
  | .addAttrI _ _ n e ids => Except.ok (n, e, ids)
  | _ => Except.error "stream not seeked to a AddAttribute instruction"

/-- `BoostSession.findInitInstruction`: scan `Next()` until an `Init` record
whose version matches.  At end of stream `Next` returns `NOPInstruction` with
a nil error, which matches neither the break condition nor the error check,
so the loop spins forever — modelled by returning `none` when the fuel runs
out; the post-loop `seq == 1` check is the only reachable error.  On success
the result carries the sequence number, the rest of the stream and the found
record (the reader cursor). -/
def findInitLoop (version : Nat) : Nat → List Instr → Option (Except String (Nat × List Instr × Instr))
  | 0, _ => none
  | fuel + 1, stream =>
    match stream with
    | [] => findInitLoop version fuel []
    | r :: rest =>
      if instrKind r = 0 ∧ instrVersion r = version then
        if instrSeq r ≠ 1 then some (Except.error "invalid sequence number for InitSymTable")
        else some (Except.ok (instrSeq r, rest, r))
      else findInitLoop version fuel rest

/-- The main loop of `BoostSession.readSymTableStream`.  `seqNum` is the
sequence number of the previous iteration.  On a version mismatch the Go code
searches for the next matching `Init`, reads its payload into a table bound
to a *shadowed* local variable (`symTable := ...`), leaving the outer table
unchanged, and then falls through to the `seq == prev+1` check with the new
`Init`'s sequence number while `instruction` still holds the mismatched
record's opcode and the reader cursor sits on the new `Init`; the model
reproduces this faithfully.  Errors of `UpdateDictionary` /
`InsertAttributeIndices` are discarded as in the source. -/
def readLoop (version : Nat) (tname : String) : Nat → SymTable → Nat → List Instr → Option (Except String SymTable)
  | 0, _, _, _ => none
  | fuel + 1, sym, seqNum, stream =>
    let cont := fun (sq : Nat) (instrVar : Instr) (cursor : Instr) (rest2 : List Instr) (tbl : SymTable) =>
      if sq ≠ seqNum + 1 then some (Except.error "invalid sequence number")
      else if instrKind instrVar = 3 then some (Except.ok (finalizeTable tbl).1)
      else if instrKind instrVar = 1 then
        match readUpdateParams cursor with
        | Except.error e => some (Except.error e)
        | Except.ok params => readLoop version tname fuel (updateDictionary tbl params).table sq rest2
      else if instrKind instrVar = 2 then
        match readAttrParams cursor with
        | Except.error e => some (Except.error e)
        | Except.ok p => readLoop version tname fuel (insertAttributeIndices tbl p.1 p.2.2).table sq rest2
      else readLoop version tname fuel tbl sq rest2
    match stream with
    | [] => some (Except.ok sym)
    | r :: rest =>
      if instrVersion r ≠ version then
        match findInitLoop version fuel rest with
        | none => none
        | some (Except.error e) => some (Except.error e)
        | some (Except.ok found) =>
          match readInitParams found.2.2 with
          | Except.error e => some (Except.error e)
          | Except.ok params =>
            -- the restarted table is assigned to a shadowed local in the Go
            -- source and therefore discarded; the outer table `sym` survives
            let _shadowed := (updateDictionary (newSymTable tname version false) params).table
            cont found.1 r found.2.2 found.2.1 sym
      else cont (instrSeq r) r r rest sym

/-- `BoostSession.readSymTableStream`: find a matching `Init` (requiring
`seq == 1`), build a fresh table from its payload (the `UpdateDictionary`
error being ignored), then run the main loop. -/
def readSymTableStream (tname : String) (version : Nat) (fuel : Nat)
    (stream : List Instr) : Option (Except String SymTable) :=
  match findInitLoop version fuel stream with
  | none => none
  | some (Except.error e) => some (Except.error e)
  | some (Except.ok found) =>
    match readInitParams found.2.2 with
    | Except.error e => some (Except.error e)
    | Except.ok params =>
      let sym := (updateDictionary (newSymTable tname version false) params).table
      readLoop version tname fuel sym found.1 found.2.1

/-! ## Attribute session (BoostSession write path)

Go iterates the attribute map in unspecified order; the model fixes the order
of the association list.  The claims settled against these definitions do not
depend on that order. -/

/-- `BoostSession.updateSymbolsAndAttributes`: collect the values missing from
the dictionary, `UpdateDictionary` them (note: called even when the collected
list is empty, in which case it fails `EmptyInput` and the function returns
before inserting any pair), then `InsertAttributeValue` every pair.
`InsertAttributeValue` only fails through the stream writer, which cannot
fail in this model. -/
def updateSymbolsAndAttributes (sym : SymTable) (attributes : List (String × String)) :
    SymTable × Option String :=
  let symbols := (attributes.filter (fun kv => !(attributeValueExists sym kv.2))).map (fun kv => kv.2)
  let r := updateDictionary sym symbols
  match r.err with
  | some e => (r.table, some e)
  | none => (attributes.foldl (fun s kv => (insertAttributeValue s kv.1 kv.2).table) r.table, none)

/-- The metadata phase of `BoostSession.WriteValueWithTaggedAttributes` on a
given table: compute the indexed header; when something is missing, run
`updateSymbolsAndAttributes` (its return value is discarded at this call
site in the source), recompute, and fail when still missing. -/
def writeValueMeta (sym : SymTable) (attributes : List (String × String)) :
    SymTable × Option String :=
  if (getIndexedHeader sym attributes).2 then
    if (getIndexedHeader (updateSymbolsAndAttributes sym attributes).1 attributes).2 then
      ((updateSymbolsAndAttributes sym attributes).1,
        some "unable to find all attributes in the symbol table")
    else ((updateSymbolsAndAttributes sym attributes).1, none)
  else (sym, none)

/-! ## Byte-level header codec (encodeHeader / decodeHeader) -/

/-- `binary.LittleEndian.PutUint32`: the four bytes of `x mod 2^32`, least
significant first. -/
def putUint32LE (x : Nat) : List Nat :=
  [x % 256, x / 256 % 256, x / 65536 % 256, x / 16777216 % 256]

/-- `binary.LittleEndian.Uint32` on the first four bytes, `none` when fewer
than four bytes remain. -/
def getUint32LE : List Nat → Option Nat
  | b0 :: b1 :: b2 :: b3 :: _ => some (b0 + b1 * 256 + b2 * 65536 + b3 * 16777216)
  | _ => none

/-- `M3DBSymStreamWriter.encodeHeader`: packs
`flags = (instruction & 0xFF) | (version << 16)` as a little-endian u32,
followed by the little-endian u32 sequence number — eight bytes in all. -/
def encodeHeader (version instruction seq : Nat) : List Nat :=
  putUint32LE (instruction % 256 + version % 65536 * 65536) ++ putUint32LE seq

/-- `M3DBSymStreamReader.decodeHeader`, together with the `len(raw) < 8` guard
that `Next` applies before calling it: version is the upper 16 bits of the
flags word, the instruction the lower 8 bits, and an instruction value of
`NOPInstruction` (4) or above is rejected. -/
def decodeHeader (raw : List Nat) : Option (Nat × Nat × Nat) :=
  if raw.length < 8 then none
  else
    match getUint32LE raw, getUint32LE (raw.drop 4) with
    | some flags, some seq =>
      let version := flags / 65536 % 65536
      let instruction := flags % 256
      if 4 ≤ instruction then none else some (version, instruction, seq)
    | _, _ => none

/-- Modelled from the spec's words for claim C4 only: the header layout the
claim asserts — version u16 little-endian at bytes 0..2, the instruction byte
at byte 2 is impossible alongside it, so the claim's reading is byte 0..2
version, byte 2 instruction is taken as bytes 0,1 version, byte 2
instruction, byte 3 zero — followed by the u32 sequence number. -/
def claimHeaderLayout (version instruction seq : Nat) : List Nat :=
  [version % 256, version / 256 % 256, instruction % 256, 0] ++ putUint32LE seq

/-! ## Series family sharding (M3DBSeriesFamily.WriteTagged) -/

/-- `fmt.Sprintf("%05d", n)` for `n < 100000`. -/
def pad5 (n : Nat) : String :=
  let s := toString n
  String.mk (List.replicate (5 - s.length) '0') ++ s

/-- The shard-qualified key prefix `"m3_data_<5-digit shard>_"`. -/
def shardKey (i : Nat) : String := "m3_data_" ++ pad5 i ++ "_"

/-- The sequence of shard-key prefixes used by `n` consecutive `WriteTagged`
calls when the atomic counter currently holds `counter`: each call first
increments the counter (`Add(1)` returns the new value) and then reduces it
modulo the distribution factor. -/
def shardKeySeq (factor counter : Nat) : Nat → List String
  | 0 => []
  | n + 1 => shardKey ((counter + 1) % factor) :: shardKeySeq factor (counter + 1) n

/-! ## Attribute-bearing series iterator (BoostSeriesIterator) -/

/-- State of `BoostSeriesIterator`: the points not yet visited (each carrying
an optional annotation; `none` models a nil Go slice), the point under the
cursor, and the annotation stashed by the last `Current()` (`none` both when
`Next()` cleared it and when the point's annotation was nil). -/
structure BoostIter : Type where
  pending : List (Option (List Nat))
  cur : Option (Option (List Nat))
  stashed : Option (List Nat)
  deriving DecidableEq, Repr

/-- `BoostSeriesIterator.Next`: clears the stashed annotation, then advances
the underlying iterator. -/
def iterNext (it : BoostIter) : BoostIter × Bool :=
  match it.pending with
  | [] => ({ it with stashed := none }, false)
  | p :: rest => (⟨rest, some p, none⟩, true)

/-- `BoostSeriesIterator.Current`: stashes the current point's annotation. -/
def iterCurrent (it : BoostIter) : BoostIter :=
  { it with stashed := match it.cur with | some a => a | none => none }

/-- A two-byte little-endian read at `off`, `none` when it would run past the
end of the slice (a Go panic). -/
def uint16At (bs : List Nat) (off : Nat) : Option Nat :=
  if off + 2 ≤ bs.length then some (bs.getD off 0 + 256 * bs.getD (off + 1) 0) else none

/-- A four-byte little-endian read at `off`, `none` when out of range. -/
def uint32At (bs : List Nat) (off : Nat) : Option Nat :=
  if off + 4 ≤ bs.length then
    some (bs.getD off 0 + 256 * bs.getD (off + 1) 0 + 65536 * bs.getD (off + 2) 0 +
      16777216 * bs.getD (off + 3) 0)
  else none

/-- The index-reading loop of `Attributes()`: the i-th of `n` u32 reads starts
at byte `4 + 4*i`. -/
def readIdxFrom (bs : List Nat) (i : Nat) : Nat → Option (List Nat)
  | 0 => some []
  | n + 1 =>
    match uint32At bs (4 + 4 * i) with
    | none => none
    | some v =>
      match readIdxFrom bs (i + 1) n with
      | none => none
      | some rest => some (v :: rest)

/-- The header length `Attributes()` reads from bytes 2..4 of the annotation
(zero bytes substituted out of range, only used to state the bound). -/
def declaredHeaderLen (bs : List Nat) : Nat :=
  bs.getD 2 0 + 256 * bs.getD 3 0

/-- The sequence of byte reads `BoostSeriesIterator.Attributes()` performs on
the stashed annotation, with every read bounds-checked: `none` marks an
out-of-range access (a Go panic on the nil or short slice), `some` returns
the decoded `(version, header length, indices)`. -/
def decodeAnnot : Option (List Nat) → Option (Nat × Nat × List Nat)
  | none => none
  | some bs =>
    (uint16At bs 0).bind (fun version =>
      (uint16At bs 2).bind (fun hsz =>
        (readIdxFrom bs 0 hsz).map (fun idxs => (version, hsz, idxs))))

/-! ## Concrete scenario tables and streams used by the claim theorems -/

/-- A fresh version-1 table with a stream writer, after `UpdateDictionary
["h1"]` — emits the `Init` record. -/
def c1r1 : MutResult := updateDictionary (newSymTable "m3_symboltable_s" 1 true) ["h1"]

/-- ... after `InsertAttributeValue "host" "h1"` — emits `AddAttribute`. -/
def c1r2 : MutResult := insertAttributeValue c1r1.table "host" "h1"

/-- ... after a second, in-memory no-op `InsertAttributeValue "host" "h1"` —
which nevertheless emits a second `AddAttribute` record. -/
def c1r3 : MutResult := insertAttributeValue c1r2.table "host" "h1"

/-- The instruction stream emitted by the three calls above. -/
def c1Stream : List Instr := c1r1.emitted ++ c1r2.emitted ++ c1r3.emitted

/-- Scenario D of the spec: `[Init v=1 seq=1 [a], Update v=2 seq=2,
Init v=1 seq=1 [x,y], End v=1 seq=2]`. -/
def c2Stream : List Instr :=
  [Instr.initI 1 1 ["a"], Instr.updateI 2 2 ["zz"], Instr.initI 1 1 ["x", "y"], Instr.endI 1 2]

/-- A finite stream containing no `Init` record at all. -/
def c3Stream : List Instr := [Instr.updateI 1 2 []]

/-- A table whose dictionary contains just "a". -/
def c5Tbl : SymTable := (updateDictionary (newSymTable "t" 1 false) ["a"]).table

/-- A finalized table with a stream writer attached. -/
def c6Tbl : SymTable := (finalizeTable (newSymTable "t" 1 true)).1

/-- A table with dictionary {0→h1, 1→h2} whose attribute "host" indexes only
"h1": the value "h2" is interned but not yet indexed under "host". -/
def c7Tbl : SymTable :=
  (insertAttributeValue (updateDictionary (newSymTable "t" 1 false) ["h1", "h2"]).table
    "host" "h1").table

/-! ## Theorems -/

/-- C1: the oracle "replay the emitted stream into an empty table and obtain
an `is_same` table" fails on the code: two successful `insert_attribute_value`
calls with the same (name, value) pair — the second a no-op on the in-memory
table — emit two `AddAttribute` records, and the replay path applies both via
`insert_attribute_indices`, which appends unconditionally, so the replayed
table has `encoded_values = [0, 0]` for "host" against `[0]` in the original
and `is_same` returns false. -/
theorem c1_replay_not_same :
    c1r1.err = none ∧ c1r2.err = none ∧ c1r3.err = none ∧
    c1Stream = [Instr.initI 1 1 ["h1"], Instr.addAttrI 1 2 "host" 1 [0],
      Instr.addAttrI 1 3 "host" 1 [0]] ∧
    (readSymTableStream "m3_symboltable_s" 1 10 c1Stream).map
      (Except.map (fun t => isSame c1r3.table t)) = some (Except.ok false) ∧
    (readSymTableStream "m3_symboltable_s" 1 10 c1Stream).map
      (Except.map (fun t => (alookup "host" t.attributeTable).map
        AttributeTable.encodedValues)) = some (Except.ok (some [0, 0])) ∧
    (alookup "host" c1r3.table.attributeTable).map AttributeTable.encodedValues =
      some [0] := by
  refine ⟨?_, ?_, ?_, ?_, ?_, ?_, ?_⟩ <;> rfl

/-- C2: replaying scenario D (`[Init v=1 seq=1 [a], Update v=2 seq=2,
Init v=1 seq=1 [x,y], End v=1 seq=2]`) at version 1 does not return the
restarted table with dictionary {0→x, 1→y}: after the version mismatch the
code re-finds the `Init` (seq 1) but then enforces `seq == prev+1` against
the pre-mismatch sequence number and fails with "invalid sequence number"
(and the restarted table was in any case assigned to a shadowed local). -/
theorem c2_version_mismatch_restart_fails :
    readSymTableStream "t" 1 10 c2Stream =
      some (Except.error "invalid sequence number") := by
  exact rfl

/-- C3: when a finite stream contains no `Init` record of the requested
version, `findInitInstruction` never terminates: at end of stream `Next()`
keeps returning `NOPInstruction` with a nil error, which neither matches the
break condition nor trips the error check, so for every amount of fuel the
loop is still running (`none`) — it never returns the NotFound error the
claim (and the dead code after the loop) expects. -/
theorem c3_findInit_never_terminates (version fuel : Nat) (stream : List Instr)
    (h : ∀ r ∈ stream, ¬(instrKind r = 0 ∧ instrVersion r = version)) :
    findInitLoop version fuel stream = none := by
  induction fuel generalizing stream with
  | zero => rfl
  | succ n ih =>
    cases stream with
    | nil =>
      show findInitLoop version n [] = none
      exact ih [] (by intro r hr; cases hr)
    | cons r rest =>
      have hr := h r (List.mem_cons_self r rest)
      show (if instrKind r = 0 ∧ instrVersion r = version then _ else
        findInitLoop version n rest) = none
      rw [if_neg hr]
      exact ih rest (fun x hx => h x (List.mem_cons_of_mem r hx))

/-- Witness for C3: the concrete one-record stream `[Update v=1 seq=2]` with
requested version 1 satisfies the no-matching-Init hypothesis, and the scan
has not produced any result after 50 iterations. -/
theorem c3_findInit_witness :
    (∀ r ∈ c3Stream, ¬(instrKind r = 0 ∧ instrVersion r = 1)) ∧
    findInitLoop 1 50 c3Stream = none :=
  ⟨by decide, c3_findInit_never_terminates 1 50 c3Stream (by decide)⟩

/-- C4 counterexample: the header layout is not "version at bytes 0..2,
instruction at byte 2".  `encode_header(version=1, Init=0, seq=1)` produces
`[0,0,1,0,1,0,0,0]` (instruction at byte 0, version little-endian at bytes
2..4), not the claimed `[1,0,0,0,1,0,0,0]`; decoding bytes in the claimed
layout misreads version 1 / Init as version 0 / instruction 1. -/
theorem c4_layout_counterexample :
    encodeHeader 1 0 1 = [0, 0, 1, 0, 1, 0, 0, 0] ∧
    claimHeaderLayout 1 0 1 = [1, 0, 0, 0, 1, 0, 0, 0] ∧
    encodeHeader 1 0 1 ≠ claimHeaderLayout 1 0 1 ∧
    decodeHeader (claimHeaderLayout 1 0 1) = some (0, 1, 1) := by decide

/-- C5 counterexample: `update_dictionary` is not atomic on failure.  On a
table whose dictionary holds "a", the input `["x", "a"]` fails with a
duplicate-value error, yet "x" — absent before the call — has been added to
the dictionary. -/
theorem c5_partial_mutation_counterexample :
    (updateDictionary c5Tbl ["x", "a"]).err.isSome = true ∧
    attributeValueExists c5Tbl "x" = false ∧
    attributeValueExists (updateDictionary c5Tbl ["x", "a"]).table "x" = true := by decide

/-- C6: `finalize` is not enforced.  It emits no `End` record (a TODO in the
source), and both `update_dictionary` and `insert_attribute_value` on a
finalized table return success and mutate the dictionary/attributes — only
the stream emission is skipped — contradicting the claim (and the code's own
comment "Once finalized, no more updates can be made"). -/
theorem c6_finalize_not_enforced :
    (finalizeTable (newSymTable "t" 1 true)).2 = [] ∧
    (updateDictionary c6Tbl ["a"]).err = none ∧
    attributeValueExists (updateDictionary c6Tbl ["a"]).table "a" = true ∧
    (updateDictionary c6Tbl ["a"]).emitted = [] ∧
    (insertAttributeValue c6Tbl "host" "h").err = none ∧
    findAttributeIndex (insertAttributeValue c6Tbl "host" "h").table "host" "h" = 0 ∧
    (insertAttributeValue c6Tbl "host" "h").emitted = [] := by decide

/-- C7 counterexample: on `c7Tbl` every value of the input `{host: h2}` is
already in the dictionary and only the (host, h2) pair is unindexed, yet the
write fails: `updateSymbolsAndAttributes` calls `update_dictionary` with the
empty missing-set, which fails `EmptyInput` and aborts before inserting the
pair, so the recomputed header still has a -1 slot. -/
theorem c7_all_present_counterexample :
    ([("host", "h2")].all (fun kv => attributeValueExists c7Tbl kv.2)) = true ∧
    (getIndexedHeader c7Tbl [("host", "h2")]).2 = true ∧
    (writeValueMeta c7Tbl [("host", "h2")]).2.isSome = true := by decide

/-- C8 counterexample: on a table with no attributes, `get_indexed_header` of
the empty map returns `([], true)`, not the claimed `([], false)`. -/
theorem c8_empty_header_counterexample :
    getIndexedHeader (newSymTable "t" 1 false) [] = ([], true) ∧
    getIndexedHeader (newSymTable "t" 1 false) [] ≠ ([], false) := by decide

/-- C9 counterexample: the atomic counter is incremented before use
(`Add(1)` returns the new value), so the first of four writes on a fresh
family with distribution factor 4 uses shard key `m3_data_00001_`, and the
order is 00001, 00002, 00003, 00000 — not 00000..00003. -/
theorem c9_first_shard_counterexample :
    shardKeySeq 4 0 4 =
      ["m3_data_00001_", "m3_data_00002_", "m3_data_00003_", "m3_data_00000_"] ∧
    shardKeySeq 4 0 4 ≠
      ["m3_data_00000_", "m3_data_00001_", "m3_data_00002_", "m3_data_00003_"] := by decide

/-- A four-byte little-endian write is read back exactly, for any suffix. -/
theorem getUint32LE_putUint32LE (x : Nat) (hx : x < 4294967296) (rest : List Nat) :
    getUint32LE (putUint32LE x ++ rest) = some x := by
  simp only [putUint32LE, List.cons_append, List.nil_append, getUint32LE, Option.some.injEq]
  omega

/-- C4 amended: `encode_header` writes exactly 8 bytes, but in the layout
instruction byte at byte 0, byte 1 reserved zero, version u16 little-endian
at bytes 2..4, sequence u32 little-endian at bytes 4..8; `decode_header`
recovers (version, instruction, seq) from that layout, and fails when the
record is shorter than 8 bytes or the instruction byte is ≥ 4. -/
theorem c4_header_amended (v i s : Nat) (hv : v < 65536) (hi : i < 4)
    (hs : s < 4294967296) :
    (encodeHeader v i s).length = 8 ∧
    encodeHeader v i s = [i, 0, v % 256, v / 256] ++ putUint32LE s ∧
    decodeHeader (encodeHeader v i s) = some (v, i, s) ∧
    decodeHeader [4, 0, 0, 0, 1, 0, 0, 0] = none ∧
    decodeHeader [1, 0] = none := by
  have hlen : (encodeHeader v i s).length = 8 := by
    simp [encodeHeader, putUint32LE]
  refine ⟨hlen, ?_, ?_, by decide, by decide⟩
  · simp only [encodeHeader, putUint32LE, List.cons_append, List.nil_append, List.cons.injEq,
      and_true]
    omega
  · have hi256 : i % 256 = i := Nat.mod_eq_of_lt (by omega)
    have hv65536 : v % 65536 = v := Nat.mod_eq_of_lt hv
    have hflags : i + v * 65536 < 4294967296 := by omega
    unfold decodeHeader
    rw [if_neg (by omega)]
    unfold encodeHeader
    rw [hi256, hv65536, getUint32LE_putUint32LE _ hflags]
    have hdrop : (putUint32LE (i + v * 65536) ++ putUint32LE s).drop 4 = putUint32LE s := by
      simp [putUint32LE]
    rw [hdrop, ← List.append_nil (putUint32LE s), getUint32LE_putUint32LE _ hs]
    dsimp only
    rw [if_neg (by omega)]
    simp only [Option.some.injEq, Prod.mk.injEq, eq_self_iff_true, and_true]
    omega

/-- Witness for C4: the amended round-trip instantiated at version 1,
instruction `Init` (0), sequence number 1. -/
theorem c4_header_witness :
    (1 : Nat) < 65536 ∧ (0 : Nat) < 4 ∧ (1 : Nat) < 4294967296 ∧
    decodeHeader (encodeHeader 1 0 1) = some (1, 0, 1) :=
  ⟨by decide, by decide, by decide,
    (c4_header_amended 1 0 1 (by decide) (by decide) (by decide)).2.2.1⟩

/-- When the head of the input is already interned, the insertion loop of
`UpdateDictionary` fails immediately and returns the maps unchanged (either
through the `dictToString` sanity check or the duplicate-value check). -/
theorem updDictLoop_head_dup (dictS : List (Nat × String)) (dictI : List (String × Nat))
    (n : Nat) (v : String) (rest : List String) (h : (alookup v dictI).isSome = true) :
    ∃ e, updDictLoop dictS dictI n (v :: rest) = (dictS, dictI, some e) := by
  unfold updDictLoop
  by_cases h1 : (alookup n dictS).isSome = true
  · exact ⟨"index value already exists in symbol table", by rw [if_pos h1]⟩
  · exact ⟨"attribute name already exists in symbol table", by rw [if_neg h1, if_pos h]⟩

/-- C5 amended: `update_dictionary` fails `DuplicateValue` when a value is
already present, but the append is not atomic: values preceding the first
duplicate stay inserted.  On any failure no stream record is emitted and the
sequence number is unchanged, and when the already-interned value is the
*first* element of the input the table is left fully unchanged. -/
theorem c5_update_dictionary_failure_amended (sym : SymTable) (values : List String) :
    ((updateDictionary sym values).err.isSome = true →
      (updateDictionary sym values).emitted = [] ∧
      (updateDictionary sym values).table.instructionSeqNum = sym.instructionSeqNum) ∧
    (∀ v rest, values = v :: rest → (alookup v sym.dictToIndex).isSome = true →
      (updateDictionary sym values).err.isSome = true ∧
      (updateDictionary sym values).table = sym) := by
  constructor
  · unfold updateDictionary
    split
    · intro _
      exact ⟨rfl, rfl⟩
    · split
      · intro _
        exact ⟨rfl, rfl⟩
      · split
        · split
          · intro h
            simp at h
          · intro h
            simp at h
        · intro h
          simp at h
  · intro v rest hv hdup
    subst hv
    obtain ⟨e, he⟩ := updDictLoop_head_dup sym.dictToString sym.dictToIndex
      sym.dictToString.length v rest hdup
    unfold updateDictionary
    rw [if_neg (by simp), he]
    exact ⟨rfl, rfl⟩

/-- Witness for C5: on the table whose dictionary holds "a", the input
`["a", "x"]` has its duplicate in first position, so the call fails and the
table is unchanged. -/
theorem c5_update_dictionary_failure_witness :
    (alookup "a" c5Tbl.dictToIndex).isSome = true ∧
    (updateDictionary c5Tbl ["a", "x"]).err.isSome = true ∧
    (updateDictionary c5Tbl ["a", "x"]).table = c5Tbl :=
  ⟨by decide,
    ((c5_update_dictionary_failure_amended c5Tbl ["a", "x"]).2 "a" ["x"] rfl (by decide)).1,
    ((c5_update_dictionary_failure_amended c5Tbl ["a", "x"]).2 "a" ["x"] rfl (by decide)).2⟩

/-- C7 amended: `write_value_with_tagged_attributes` fails whenever the
recomputed header is still missing something — and when every attribute value
of the input is already interned, `updateSymbolsAndAttributes` collects an
empty missing-set, `update_dictionary` fails `EmptyInput`, and the function
aborts before inserting any (name, value) pair, so the table is unchanged and
a write whose only problem is an unindexed pair fails instead of
succeeding. -/
theorem c7_unresolved_attribute_amended (sym : SymTable)
    (attributes : List (String × String))
    (hall : attributes.all (fun kv => attributeValueExists sym kv.2) = true)
    (hmiss : (getIndexedHeader sym attributes).2 = true) :
    (writeValueMeta sym attributes).2.isSome = true ∧
    (writeValueMeta sym attributes).1 = sym := by
  have hfil : attributes.filter (fun kv => !(attributeValueExists sym kv.2)) = [] := by
    rw [List.filter_eq_nil_iff]
    intro kv hkv
    have := List.all_eq_true.mp hall kv hkv
    simp [this]
  have hupd : updateSymbolsAndAttributes sym attributes =
      (sym, some "attribute values are empty") := by
    unfold updateSymbolsAndAttributes
    rw [hfil]
    rfl
  unfold writeValueMeta
  rw [hupd, hmiss]
  simp [hmiss]

/-- Witness for C7: the amended statement instantiated at the concrete table
`c7Tbl` and input `{host: h2}`. -/
theorem c7_unresolved_attribute_witness :
    ([("host", "h2")].all (fun kv => attributeValueExists c7Tbl kv.2) = true) ∧
    ((getIndexedHeader c7Tbl [("host", "h2")]).2 = true) ∧
    (writeValueMeta c7Tbl [("host", "h2")]).2.isSome = true ∧
    (writeValueMeta c7Tbl [("host", "h2")]).1 = c7Tbl :=
  ⟨by decide, by decide,
    (c7_unresolved_attribute_amended c7Tbl [("host", "h2")] (by decide) (by decide)).1,
    (c7_unresolved_attribute_amended c7Tbl [("host", "h2")] (by decide) (by decide)).2⟩

/-- In the per-column loop of `GetIndexedHeader`, the `hasMissing` flag is
raised exactly when some produced slot is -1. -/
theorem giLoop_missing_iff (sym : SymTable) (attributes : List (String × String))
    (names : List String) :
    (giLoop sym attributes names).2 = true ↔ (-1 : Int) ∈ (giLoop sym attributes names).1 := by
  induction names with
  | nil => simp [giLoop]
  | cons n rest ih =>
    simp only [giLoop, List.mem_cons, Bool.or_eq_true, beq_iff_eq]
    rw [ih]
    constructor
    · rintro (h | h)
      · exact Or.inl h.symm
      · exact Or.inr h
    · rintro (h | h)
      · exact Or.inl h.symm
      · exact Or.inr h

/-- C8 amended: `has_missing` is true exactly when the table's header is
empty (the early-return case the claim missed, which yields `([], true)`) or
some slot of the returned header vector is -1. -/
theorem c8_has_missing_amended (sym : SymTable) (attributes : List (String × String)) :
    (getIndexedHeader sym attributes).2 = true ↔
      sym.header = [] ∨ (-1 : Int) ∈ (getIndexedHeader sym attributes).1 := by
  unfold getIndexedHeader
  by_cases h : sym.header.length = 0
  · simp [h, List.length_eq_zero.mp h]
  · have hne : sym.header ≠ [] := by
      intro he
      rw [he] at h
      exact h rfl
    rw [if_neg h]
    simp only [hne, false_or]
    exact giLoop_missing_iff sym attributes sym.header

/-- The shard keys of consecutive `WriteTagged` calls, as a function of the
write's position: the counter is pre-incremented, so the i-th write (counting
from zero, counter starting at `counter`) uses shard `(counter + i + 1) %
factor`. -/
theorem shardKeySeq_eq_map (factor n : Nat) : ∀ counter : Nat,
    shardKeySeq factor counter n =
      (List.range n).map (fun i => shardKey ((counter + i + 1) % factor)) := by
  induction n with
  | zero => intro counter; rfl
  | succ m ih =>
    intro counter
    rw [List.range_succ_eq_map, List.map_cons, List.map_map]
    show shardKey ((counter + 1) % factor) :: shardKeySeq factor (counter + 1) m = _
    rw [ih (counter + 1)]
    refine congrArg₂ List.cons rfl ?_
    refine List.map_congr_left ?_
    intro i _
    simp only [Function.comp_apply]
    congr 2
    omega

/-- C9 amended: on a fresh family the i-th `write_tagged` (counting from
zero) uses the zero-padded shard index `(i + 1) % factor`; with distribution
factor 4 the first four writes address `m3_data_00001_`, `m3_data_00002_`,
`m3_data_00003_`, `m3_data_00000_` in that order. -/
theorem c9_round_robin_amended (n : Nat) :
    shardKeySeq 4 0 n = (List.range n).map (fun i => shardKey ((i + 1) % 4)) ∧
    shardKeySeq 4 0 4 =
      ["m3_data_00001_", "m3_data_00002_", "m3_data_00003_", "m3_data_00000_"] := by
  refine ⟨?_, by decide⟩
  rw [shardKeySeq_eq_map 4 n 0]
  simp

/-- The index-reading loop of `Attributes()` stays in bounds exactly when the
last of the `n` four-byte reads starting at byte `4 + 4*i` fits. -/
theorem readIdxFrom_isSome (bs : List Nat) (n : Nat) : ∀ i : Nat,
    (readIdxFrom bs i n).isSome = true ↔ (n = 0 ∨ 4 + 4 * i + 4 * n ≤ bs.length) := by
  induction n with
  | zero => intro i; simp [readIdxFrom]
  | succ m ih =>
    intro i
    simp only [readIdxFrom, uint32At]
    by_cases h : 4 + 4 * i + 4 ≤ bs.length
    · rw [if_pos (by omega)]
      cases hr : readIdxFrom bs (i + 1) m with
      | none =>
        have := ih (i + 1)
        rw [hr] at this
        simp only [Option.isSome_none, Bool.false_eq_true, false_iff] at this
        simp only [Option.isSome_none, Bool.false_eq_true, false_iff]
        omega
      | some l =>
        have := ih (i + 1)
        rw [hr] at this
        simp only [Option.isSome_some, true_iff] at this
        simp only [Option.isSome_some, true_iff]
        omega
    · rw [if_neg (by omega)]
      simp only [Option.isSome_none, Bool.false_eq_true, false_iff]
      omega

/-- C10: `Attributes()` decodes the stashed annotation with no nil or bounds
check.  `Next()` always clears the stash, so calling `Attributes()` before
the next `Current()` reads a nil slice (an out-of-range access), and on a
stashed annotation the sequence of byte reads stays in bounds exactly when
the annotation holds at least `4 + 4 * header_length` bytes, where
`header_length` is the u16 it declares at bytes 2..4. -/
theorem c10_attributes_precondition :
    (∀ it : BoostIter, (iterNext it).1.stashed = none) ∧
    decodeAnnot none = none ∧
    (∀ bs : List Nat, (decodeAnnot (some bs)).isSome = true ↔
      4 + 4 * declaredHeaderLen bs ≤ bs.length) := by
  refine ⟨?_, rfl, ?_⟩
  · intro it
    cases h : it.pending with
    | nil => simp [iterNext, h]
    | cons p rest => simp [iterNext, h]
  · intro bs
    simp only [decodeAnnot, uint16At]
    by_cases h2 : 0 + 2 ≤ bs.length
    · rw [if_pos h2]
      by_cases h4 : 2 + 2 ≤ bs.length
      · rw [if_pos h4]
        simp only [Option.some_bind]
        have hd : bs.getD 2 0 + 256 * bs.getD (2 + 1) 0 = declaredHeaderLen bs := rfl
        rw [hd]
        have hlem := readIdxFrom_isSome bs (declaredHeaderLen bs) 0
        cases hr : readIdxFrom bs 0 (declaredHeaderLen bs) with
        | none =>
          rw [hr] at hlem
          simp only [hr, Option.map_none', Option.isSome_none, Bool.false_eq_true,
            false_iff] at hlem ⊢
          omega
        | some l =>
          rw [hr] at hlem
          simp only [hr, Option.map_some', Option.isSome_some, true_iff] at hlem ⊢
          omega
      · rw [if_neg h4]
        simp only [Option.some_bind, Option.none_bind, Option.isSome_none,
          Bool.false_eq_true, false_iff]
        unfold declaredHeaderLen
        omega
    · rw [if_neg h2]
      simp only [Option.none_bind, Option.isSome_none, Bool.false_eq_true, false_iff]
      unfold declaredHeaderLen
      have hlen : bs.length < 2 := by omega
      intro hh
      omega

end M3Boost
